import Mathlib

/-!
Shallow embedding of `src/analisi.py` (Streamlit financial-statement
analyzer). Amounts are modelled as exact rationals (`ℚ`) instead of IEEE
floats; string helpers mirror the Python string operations on the ASCII
fragment the program actually manipulates (the Italian keyword tables in
the source are already lowercase).
-/

namespace Analisi

/-- Substring test on character lists: Python `pat in l`. -/
def listContainsSub : List Char → List Char → Bool
  | [], pat => pat.isEmpty
  | l@(_ :: t), pat => pat.isPrefixOf l || listContainsSub t pat

/-- Python `pat in s` (case-sensitive substring containment). -/
def strContains (s pat : String) : Bool :=
  listContainsSub s.data pat.data

/-- Python `any(kw in s for kw in kws)`. -/
def containsAnyKw (s : String) (kws : List String) : Bool :=
  kws.any (fun kw => strContains s kw)

/-- Python `str.strip()` (whitespace from both ends). -/
def pyStrip (s : String) : String :=
  String.mk (((s.data.dropWhile Char.isWhitespace).reverse.dropWhile Char.isWhitespace).reverse)

/-- Python `str.lower()` (character-wise; ASCII fragment). -/
def pyLower (s : String) : String :=
  String.mk (s.data.map Char.toLower)

/-- Python `str.upper()` (character-wise; ASCII fragment). -/
def pyUpper (s : String) : String :=
  String.mk (s.data.map Char.toUpper)

/-- Python `str.capitalize()`: first character uppercased, the rest
lowercased. -/
def pyCapitalize (s : String) : String :=
  match s.data with
  | [] => ""
  | c :: t => String.mk (c.toUpper :: t.map Char.toLower)

/-- Helper of `pySplitChar`: accumulates the current field reversed. -/
def splitOnCharAux (sep : Char) : List Char → List Char → List (List Char)
  | [], acc => [acc.reverse]
  | c :: rest, acc =>
    if c = sep then acc.reverse :: splitOnCharAux sep rest []
    else splitOnCharAux sep rest (c :: acc)

/-- Python `s.split(sep)` for a one-character separator:
splitting the empty string gives one empty field and separators
are not merged. -/
def pySplitChar (s : String) (sep : Char) : List String :=
  (splitOnCharAux sep s.data []).map String.mk

/-- Numeric value of a digit run (most significant first). -/
def digitsToNat (l : List Char) : Nat :=
  l.foldl (fun n c => n * 10 + (c.toNat - 48)) 0

/-- Components of a parsed Python float literal: sign, integer digits,
fractional digits, number of fractional digits, decimal exponent. -/
structure PyFloatVal where
  neg : Bool
  ip : Nat
  fp : Nat
  fpLen : Nat
  exp : Int
  deriving DecidableEq, Repr

/-- Rational value denoted by parsed float components. -/
def partsToRat (v : PyFloatVal) : ℚ :=
  (if v.neg then (-1 : ℚ) else 1) * ((v.ip : ℚ) + (v.fp : ℚ) / (10 : ℚ) ^ v.fpLen)
    * (10 : ℚ) ^ v.exp

/-- Recognizer for the grammar Python `float(s)` accepts:
`[ws] [sign] (digits [. [digits]] | . digits) [(e|E) [sign] digits] [ws]`.
`none` where `float` raises `ValueError`. The special forms `inf`/`nan`
and digit-group underscores are outside the model (never produced by the
cleaned amount strings this program feeds in). -/
def pyFloatParse (s : String) : Option PyFloatVal :=
  let l0 := s.data.dropWhile Char.isWhitespace
  let l := (l0.reverse.dropWhile Char.isWhitespace).reverse
  let sgnl : Bool × List Char :=
    match l with
    | '+' :: t => (false, t)
    | '-' :: t => (true, t)
    | _ => (false, l)
  let l1 := sgnl.2
  let ip := l1.takeWhile Char.isDigit
  let r1 := l1.dropWhile Char.isDigit
  let fpr : List Char × List Char :=
    match r1 with
    | '.' :: t => (t.takeWhile Char.isDigit, t.dropWhile Char.isDigit)
    | _ => ([], r1)
  let fp := fpr.1
  let r2 := fpr.2
  if ip.isEmpty && fp.isEmpty then none
  else
    let mkVal : Int → PyFloatVal := fun e =>
      ⟨sgnl.1, digitsToNat ip, digitsToNat fp, fp.length, e⟩
    match r2 with
    | [] => some (mkVal 0)
    | 'e' :: t =>
      let esl : Int × List Char :=
        match t with
        | '+' :: t2 => (1, t2)
        | '-' :: t2 => (-1, t2)
        | _ => (1, t)
      let ed := esl.2.takeWhile Char.isDigit
      let rest := esl.2.dropWhile Char.isDigit
      if ed.isEmpty || !rest.isEmpty then none
      else some (mkVal (esl.1 * (digitsToNat ed : Int)))
    | 'E' :: t =>
      let esl : Int × List Char :=
        match t with
        | '+' :: t2 => (1, t2)
        | '-' :: t2 => (-1, t2)
        | _ => (1, t)
      let ed := esl.2.takeWhile Char.isDigit
      let rest := esl.2.dropWhile Char.isDigit
      if ed.isEmpty || !rest.isEmpty then none
      else some (mkVal (esl.1 * (digitsToNat ed : Int)))
    | _ => none

/-- Python `float(s)` as a partial function into `ℚ`. -/
def pyFloat (s : String) : Option ℚ :=
  (pyFloatParse s).map partsToRat

/-- String-processing core of `clean_and_convert_amount` (src/analisi.py
lines 55-64): `none` for a falsy input, else strip, drop spaces, drop `.`
(thousands separator), turn `,` into `.` (decimal point), and parse; a
failed conversion gives `none`. -/
def cleanParse (amount_str : Option String) : Option PyFloatVal :=
  match amount_str with
  | none => none
  | some s0 =>
    if s0 = "" then none
    else
      let s1 := pyStrip s0
      let s2 := s1.data.filter (fun c => c != ' ')
      let s3 := (s2.filter (fun c => c != '.')).map (fun c => if c = ',' then '.' else c)
      pyFloatParse (String.mk s3)

/-- `clean_and_convert_amount`: the parsed components as a rational. -/
def clean_and_convert_amount (amount_str : Option String) : Option ℚ :=
  (cleanParse amount_str).map partsToRat

/-! ### Keyword tables (src/analisi.py lines 33-49) -/

def kwAssetsCurrent : List String :=
  ["cassa", "banca", "crediti", "clienti", "rimanenze", "scorte",
   "ratei attivi", "risconti attivi", "liquidità", "depositi bancari",
   "denaro e valori"]

def kwAssetsNonCurrent : List String :=
  ["immobilizzazioni", "impianti", "macchinari", "attrezzature",
   "fabbricati", "terreni", "brevetti", "marchi", "software",
   "partecipazioni", "mobili e arredi", "macchine d\x27ufficio", "auto",
   "autocarri"]

def kwLiabCurrent : List String :=
  ["debiti", "fornitori", "tributari", "erario", "inps", "inail",
   "dipendenti", "ratei passivi", "risconti passivi", "banche c/c passivi"]

def kwLiabNonCurrent : List String :=
  ["mutui", "finanziamenti", "tfr", "trattamento fine rapporto"]

def kwLiabEquity : List String :=
  ["capitale", "riserve", "utile", "perdita", "patrimonio netto"]

def kwSpecialNegative : List String :=
  ["f.do amm", "fondo amm", "fondo ammortamenti", "ammortamenti"]

def kwIncomeVariable : List String :=
  ["materie", "consumo", "acquisti", "sussidiarie", "lavorazioni",
   "costi per materie", "rim.fin", "rim.iniz"]

/-- The concatenated asset keyword lists (current plus non-current). -/
def kwAssetsAll : List String := kwAssetsCurrent ++ kwAssetsNonCurrent

/-- The concatenated liability keyword lists (current, non-current, equity). -/
def kwLiabAll : List String := kwLiabCurrent ++ kwLiabNonCurrent ++ kwLiabEquity


/-! ### FUND_REGEX (src/analisi.py line 52)

`\b(f(\.|ondo)?\s*amm(?:ortamenti)?|ammortamenti)\b` with `re.I`,
used through `re.search`. Word characters are modelled on the ASCII
fragment (`isAlphanum` or underscore); the program only ever applies the
regex to lowercased descriptions. -/

def isWordChar (c : Char) : Bool := c.isAlphanum || c == '_'

/-- Case-insensitive literal match; the pattern is given lowercase.
Returns the remaining input on success. -/
def matchLitCI : List Char → List Char → Option (List Char)
  | [], l => some l
  | _ :: _, [] => none
  | p :: ps, c :: cs => if c.toLower = p then matchLitCI ps cs else none

/-- `\b` claimed right after a word character: end of input or a
non-word character. -/
def boundaryAfter : List Char → Bool
  | [] => true
  | c :: _ => !isWordChar c

/-- First regex alternative `f(\.|ondo)?\s*amm(?:ortamenti)?\b` tried at
the head of `l`. -/
def fundAlt1 (l : List Char) : Bool :=
  match l with
  | [] => false
  | c :: r =>
    if c.toLower = 'f' then
      let mids : List (List Char) :=
        [r] ++
          (match matchLitCI ['.'] r with | some r2 => [r2] | none => []) ++
          (match matchLitCI ['o', 'n', 'd', 'o'] r with | some r2 => [r2] | none => [])
      mids.any (fun r2 =>
        let r3 := r2.dropWhile Char.isWhitespace
        match matchLitCI ['a', 'm', 'm'] r3 with
        | some r4 =>
          boundaryAfter r4 ||
            (match matchLitCI "ortamenti".data r4 with
             | some r5 => boundaryAfter r5
             | none => false)
        | none => false)
    else false

/-- Second regex alternative `ammortamenti\b` tried at the head of `l`. -/
def fundAlt2 (l : List Char) : Bool :=
  match matchLitCI "ammortamenti".data l with
  | some r => boundaryAfter r
  | none => false

/-- Scan for a match position; `prevW` says whether the previous character
was a word character (for the leading `\b`). -/
def fundSearch : List Char → Bool → Bool
  | [], _ => false
  | c :: rest, prevW =>
    (!prevW && isWordChar c && (fundAlt1 (c :: rest) || fundAlt2 (c :: rest))) ||
      fundSearch rest (isWordChar c)

/-- `FUND_REGEX.search(s)` truthiness. -/
def fundRegexSearch (s : String) : Bool :=
  fundSearch s.data false

/-! ### PDF saldo extraction (src/analisi.py lines 107-156)

A table row is a list of stripped cell strings `cells` (`cells[0]` is the
description) together with the lowercased header names `lowerHeaders`
(empty when the table had no recognized header row, matching
`lower_headers = headers if has_header else []`). -/

/-- Case 1 regex `^([\-]?\d[\d\.]*,\d{2})([DA])$` (with `re.I`) applied to
the cell with spaces removed; on a match returns (group 1, uppercased
group 2).
`[\d\.]*` cannot cross the `,`, so maximal-munch is exact here. -/
def case1Match (cell : String) : Option (String × Char) :=
  let l := cell.data.filter (fun c => c != ' ')
  let sgn : List Char × List Char :=
    match l with
    | '-' :: t => (['-'], t)
    | _ => ([], l)
  match sgn.2 with
  | [] => none
  | c0 :: t0 =>
    if c0.isDigit then
      let run := t0.takeWhile (fun c => c.isDigit || c == '.')
      let rest := t0.dropWhile (fun c => c.isDigit || c == '.')
      match rest with
      | ',' :: d1 :: d2 :: sc :: [] =>
        if d1.isDigit && d2.isDigit && (sc == 'D' || sc == 'A' || sc == 'd' || sc == 'a')
        then some (String.mk (sgn.1 ++ c0 :: run ++ [',', d1, d2]), sc.toUpper)
        else none
      | _ => none
    else none

/-- Case 1 loop over `cells[1:]`: first cell whose content matches
`amount` immediately followed by `D`/`A`. -/
def saldoCase1Go : List String → Option (ℚ × Char)
  | [] => none
  | c :: rest =>
    match case1Match c with
    | some gs =>
      match clean_and_convert_amount (some gs.1) with
      | some q => some (q, gs.2)
      | none => none
    | none => saldoCase1Go rest

def saldoCase1 (cells : List String) : Option (ℚ × Char) :=
  saldoCase1Go (cells.drop 1)

/-- Case 2 test on one adjacent pair: numeric cell followed by a cell that
strips/uppercases to exactly `D` or `A`. -/
def case2Pair (a b : String) : Option (ℚ × Char) :=
  match clean_and_convert_amount (some a) with
  | some imp =>
    let seg := pyUpper (pyStrip b)
    if seg = "D" then some (imp, 'D')
    else if seg = "A" then some (imp, 'A')
    else none
  | none => none

/-- Case 2 loop over `i in range(1, len(cells) - 1)`. -/
def saldoCase2Go : List String → Option (ℚ × Char)
  | a :: b :: rest =>
    match case2Pair a b with
    | some r => some r
    | none => saldoCase2Go (b :: rest)
  | _ => none

def saldoCase2 (cells : List String) : Option (ℚ × Char) :=
  saldoCase2Go (cells.drop 1)

/-- Index of the first header containing both `saldo` and `dare`. -/
def sdIdx (lowerHeaders : List String) : Option Nat :=
  lowerHeaders.findIdx? (fun h => strContains h "saldo" && strContains h "dare")

/-- Index of the first header containing both `saldo` and `avere`. -/
def saIdx (lowerHeaders : List String) : Option Nat :=
  lowerHeaders.findIdx? (fun h => strContains h "saldo" && strContains h "avere")

/-- `clean_and_convert_amount(cells[i]) if i is not None and i < len(cells)
else None`. -/
def idxVal (cells : List String) : Option Nat → Option ℚ
  | some i => if i < cells.length then clean_and_convert_amount (some (cells.getD i "")) else none
  | none => none

/-- Dedicated saldo-dare / saldo-avere columns: the first of the two that
is strictly positive (`(v or 0) > 0`). -/
def saldoCase3Hdr (sdVal saVal : Option ℚ) : Option (ℚ × Char) :=
  if 0 < sdVal.getD 0 then sdVal.map (fun v => (v, 'D'))
  else if 0 < saVal.getD 0 then saVal.map (fun v => (v, 'A'))
  else none

/-- Indexed numeric cells of `cells[1:]` (enumerated from 1). -/
def numericCells (cells : List String) : List (Nat × ℚ) :=
  (cells.enum.drop 1).filterMap
    (fun p => (clean_and_convert_amount (some p.2)).map (fun v => (p.1, v)))

/-- Fallback when no saldo-dare/avere headers exist: last numeric cell,
side from a `dare`/`avere` header name or else from the sign. -/
def saldoCase3Fallback (lowerHeaders cells : List String) : Option (ℚ × Char) :=
  match (numericCells cells).getLast? with
  | none => none
  | some iv =>
    let colName := lowerHeaders.getD iv.1 ""
    if strContains colName "dare" then some (iv.2, 'D')
    else if strContains colName "avere" then some (iv.2, 'A')
    else some (|iv.2|, if iv.2 < 0 then 'A' else 'D')

def saldoCase3 (lowerHeaders cells : List String) : Option (ℚ × Char) :=
  if (sdIdx lowerHeaders).isSome || (saIdx lowerHeaders).isSome then
    saldoCase3Hdr (idxVal cells (sdIdx lowerHeaders)) (idxVal cells (saIdx lowerHeaders))
  else saldoCase3Fallback lowerHeaders cells

/-- The saldo-extraction chain: each later case runs only while
`saldo_amount is None`. -/
def extractSaldo (lowerHeaders cells : List String) : Option (ℚ × Char) :=
  match saldoCase1 cells with
  | some r => some r
  | none =>
    match saldoCase2 cells with
    | some r => some r
    | none => saldoCase3 lowerHeaders cells

/-! ### PDF row classification (src/analisi.py lines 158-172) -/

inductive PdfDest where
  | assets (amount : ℚ)
  | liabilities (amount : ℚ)
  | income (amount : ℚ) (ctype : String)
  deriving DecidableEq, Repr

/-- Keyword routing of a row with recognized saldo `(amount, side)`. -/
def classifyPdfRow (desc : String) (side : Char) (amount : ℚ) : PdfDest :=
  let itemLower := pyLower desc
  if side = 'D' then
    if containsAnyKw itemLower kwAssetsAll then
      .assets amount
    else
      .income amount (if containsAnyKw itemLower kwIncomeVariable then "Variabile" else "Fisso")
  else
    if fundRegexSearch itemLower then .liabilities |amount|
    else if containsAnyKw itemLower kwLiabAll then
      .liabilities amount
    else .income amount "Ricavo"

/-- Full handling of one table row past the description checks: saldo
extraction, the `side in ("D", "A")` guard of line 155, then
classification; `none` means the row contributes nothing. -/
def processPdfRow (lowerHeaders cells : List String) (desc : String) : Option PdfDest :=
  match extractSaldo lowerHeaders cells with
  | none => none
  | some qc =>
    if qc.2 = 'D' || qc.2 = 'A' then some (classifyPdfRow desc qc.2 qc.1) else none

/-! ### CSV parsing (src/analisi.py lines 177-220)

`pd.read_csv` is a host-library call: each of the four
encoding/separator configurations is abstracted as an attempt outcome,
`none` for a caught `UnicodeDecodeError`/`ParserError` and `some frame`
for a parse that produced a dataframe. A dataframe is its raw column
names plus its data rows (cell access abstracted into fields). -/

structure CsvRow where
  voce : String
  importo : ℚ
  sezione : String
  tipo : Option String

structure Frame where
  cols : List String
  rows : List CsvRow

/-- Line 191 normalization `c.lower().strip()`. -/
def normColsLS (f : Frame) : List String :=
  f.cols.map (fun c => pyStrip (pyLower c))

/-- Line 203 normalization `col.strip().lower()`. -/
def normColsSL (f : Frame) : List String :=
  f.cols.map (fun c => pyLower (pyStrip c))

/-- The config loop: first attempt that parsed and whose normalized
columns include `voce`. -/
def selectDf (attempts : List (Option Frame)) : Option Frame :=
  attempts.findSome? (fun a =>
    match a with
    | some df => if (normColsLS df).contains "voce" then some df else none
    | none => none)

inductive CsvDest where
  | assets (voce : String) (importo : ℚ)
  | liabilities (voce : String) (importo : ℚ)
  | income (voce : String) (importo : ℚ) (tipo : String)
  deriving DecidableEq, Repr

/-- Row routing of lines 209-219 on the lowercased `sezione`. -/
def routeCsvRow (r : CsvRow) : Option CsvDest :=
  let voce := pyStrip r.voce
  let sezione := pyLower r.sezione
  if strContains sezione "attivit" then some (.assets voce r.importo)
  else if strContains sezione "passivit" || strContains sezione "pn" then
    some (.liabilities voce r.importo)
  else if strContains sezione "conto economico" then
    some (.income voce r.importo (pyCapitalize (r.tipo.getD "Fisso")))
  else none

structure CsvOut where
  error : Bool
  assets : List (String × ℚ)
  liabilities : List (String × ℚ)
  income : List (String × ℚ × String)
  deriving DecidableEq, Repr

/-- The emission loop over `df.iterrows()`. -/
def emitRows : List CsvRow → CsvOut
  | [] => ⟨false, [], [], []⟩
  | r :: rest =>
    let o := emitRows rest
    match routeCsvRow r with
    | some (.assets v i) => { o with assets := (v, i) :: o.assets }
    | some (.liabilities v i) => { o with liabilities := (v, i) :: o.liabilities }
    | some (.income v i t) => { o with income := (v, i, t) :: o.income }
    | none => o

def requiredCols : List String := ["voce", "importo", "sezione"]

/-- `parse_csv_file` given the outcome of each configuration attempt;
`error = true` models `st.error` followed by `return "", "", ""`. -/
def parse_csv_file (attempts : List (Option Frame)) : CsvOut :=
  match selectDf attempts with
  | none => ⟨true, [], [], []⟩
  | some df =>
    if requiredCols.all (fun c => (normColsSL df).contains c) then emitRows df.rows
    else ⟨true, [], [], []⟩

/-! ### Textarea parsing (src/analisi.py lines 223-236) -/

structure Entry where
  item : String
  amount : ℚ
  type : Option String

/-- One line of the textarea: `none` models the `except (ValueError,
IndexError): pass` path and the falsy-line `continue`. A missing second
field and a second field that fails `float` coincide
(`(pySplitChar l ',').getD 1 "" = ""` on a one-field line, and
`pyFloat "" = none`). -/
def parseTextLine (line : String) : Option Entry :=
  if line = "" then none
  else
    let parts := pySplitChar line ','
    let item := pyStrip (parts.getD 0 "")
    match parts[1]? with
    | none => none
    | some p1 =>
      match pyFloat (pyStrip p1) with
      | none => none
      | some amt =>
        some ⟨item, amt, (parts[2]?).map (fun p => pyCapitalize (pyStrip p))⟩

def textareaGo : List String → List Entry
  | [] => []
  | line :: rest =>
    match parseTextLine line with
    | some e => e :: textareaGo rest
    | none => textareaGo rest

/-- `parse_textarea_data`. -/
def parse_textarea_data (text : String) : List Entry :=
  textareaGo (pySplitChar (pyStrip text) '\n')

/-! ### Analysis pipeline (src/analisi.py lines 290-370) -/

structure AnalysisInput where
  assets_data : List Entry
  liabilities_data : List Entry
  income_data : List Entry
  tax_rate : ℚ

/-- Python sum of the amount fields of a row list. -/
def sumAmounts (l : List Entry) : ℚ :=
  (l.map Entry.amount).sum

def total_raw_assets (inp : AnalysisInput) : ℚ :=
  sumAmounts inp.assets_data

/-- The fund filter of lines 302-305 and 319-322. -/
def isFundEntry (d : Entry) : Bool :=
  fundRegexSearch (pyLower d.item) || containsAnyKw (pyLower d.item) kwSpecialNegative

def amortization_funds (inp : AnalysisInput) : ℚ :=
  sumAmounts (inp.liabilities_data.filter isFundEntry)

def net_total_assets (inp : AnalysisInput) : ℚ :=
  total_raw_assets inp - amortization_funds inp

def current_assets_raw (inp : AnalysisInput) : ℚ :=
  sumAmounts (inp.assets_data.filter (fun d => containsAnyKw (pyLower d.item) kwAssetsCurrent))

def non_current_assets_raw (inp : AnalysisInput) : ℚ :=
  sumAmounts (inp.assets_data.filter (fun d => containsAnyKw (pyLower d.item) kwAssetsNonCurrent))

def net_non_current_assets (inp : AnalysisInput) : ℚ :=
  non_current_assets_raw inp - amortization_funds inp

def liabilities_no_funds (inp : AnalysisInput) : List Entry :=
  inp.liabilities_data.filter (fun d => !isFundEntry d)

def bs_current_assets (inp : AnalysisInput) : ℚ :=
  current_assets_raw inp

def bs_non_current_assets (inp : AnalysisInput) : ℚ :=
  net_non_current_assets inp

def bs_current_liabilities (inp : AnalysisInput) : ℚ :=
  sumAmounts ((liabilities_no_funds inp).filter (fun d => containsAnyKw (pyLower d.item) kwLiabCurrent))

def bs_non_current_liabilities (inp : AnalysisInput) : ℚ :=
  sumAmounts ((liabilities_no_funds inp).filter (fun d => containsAnyKw (pyLower d.item) kwLiabNonCurrent))

def bs_equity_raw (inp : AnalysisInput) : ℚ :=
  sumAmounts ((liabilities_no_funds inp).filter (fun d => containsAnyKw (pyLower d.item) kwLiabEquity))

def rimanenze (inp : AnalysisInput) : ℚ :=
  sumAmounts (inp.assets_data.filter
    (fun d => strContains (pyLower d.item) "rimanenze" || strContains (pyLower d.item) "scorte"))

def utile_from_pdf (inp : AnalysisInput) : ℚ :=
  sumAmounts (inp.income_data.filter
    (fun d => strContains (pyLower d.item) "utile d\x27esercizio" || (pyLower d.item) == "utile"))

/-- The equity bucket after the line 335-336 adjustment. -/
def bs_equity (inp : AnalysisInput) : ℚ :=
  if 0 < utile_from_pdf inp then bs_equity_raw inp + utile_from_pdf inp
  else bs_equity_raw inp

def total_liabilities_and_equity (inp : AnalysisInput) : ℚ :=
  bs_current_liabilities inp + bs_non_current_liabilities inp + bs_equity inp

def income_revenues (inp : AnalysisInput) : ℚ :=
  sumAmounts (inp.income_data.filter (fun d => d.type == some "Ricavo"))

def income_variable_costs (inp : AnalysisInput) : ℚ :=
  sumAmounts (inp.income_data.filter (fun d => d.type == some "Variabile"))

def income_fixed_costs (inp : AnalysisInput) : ℚ :=
  sumAmounts (inp.income_data.filter
    (fun d => d.type == some "Fisso" && !strContains (pyLower d.item) "utile"))

def contribution_margin (inp : AnalysisInput) : ℚ :=
  income_revenues inp - income_variable_costs inp

def ebit (inp : AnalysisInput) : ℚ :=
  contribution_margin inp - income_fixed_costs inp

def interest (inp : AnalysisInput) : ℚ :=
  sumAmounts (inp.income_data.filter
    (fun d => strContains (pyLower d.item) "interessi" || strContains (pyLower d.item) "oneri finanziari"))

def ebt (inp : AnalysisInput) : ℚ :=
  ebit inp - interest inp

def taxes (inp : AnalysisInput) : ℚ :=
  if 0 < ebt inp then ebt inp * inp.tax_rate else 0

def net_income (inp : AnalysisInput) : ℚ :=
  ebt inp - taxes inp

/-! `ratios` dictionary (src/analisi.py lines 353-362). -/

def current_ratio (inp : AnalysisInput) : ℚ :=
  if 0 < bs_current_liabilities inp then bs_current_assets inp / bs_current_liabilities inp else 0

def quick_ratio (inp : AnalysisInput) : ℚ :=
  if 0 < bs_current_liabilities inp then
    (bs_current_assets inp - rimanenze inp) / bs_current_liabilities inp
  else 0

def debt_to_equity (inp : AnalysisInput) : ℚ :=
  if 0 < bs_equity inp then
    (bs_current_liabilities inp + bs_non_current_liabilities inp) / bs_equity inp
  else 0

def ros (inp : AnalysisInput) : ℚ :=
  if 0 < income_revenues inp then ebit inp / income_revenues inp else 0

def roe (inp : AnalysisInput) : ℚ :=
  if 0 < bs_equity inp then net_income inp / bs_equity inp else 0

def roi (inp : AnalysisInput) : ℚ :=
  if 0 < net_total_assets inp then ebit inp / net_total_assets inp else 0

def contribution_margin_ratio (inp : AnalysisInput) : ℚ :=
  if 0 < income_revenues inp then contribution_margin inp / income_revenues inp else 0

def break_even_point (inp : AnalysisInput) : ℚ :=
  if 0 < contribution_margin inp ∧ 0 < income_revenues inp then
    income_fixed_costs inp / (contribution_margin inp / income_revenues inp)
  else 0

def balance_diff (inp : AnalysisInput) : ℚ :=
  net_total_assets inp - total_liabilities_and_equity inp

/-- Line 367 check `abs(balance_diff) < 20` behind "Il bilancio quadra". -/
def bilancio_quadra (inp : AnalysisInput) : Bool :=
  |balance_diff inp| < 20

/-! ### Destination discriminators, used to state the routing claims -/

def PdfDest.isAssets : PdfDest → Bool
  | .assets _ => true
  | _ => false

def PdfDest.isLiab : PdfDest → Bool
  | .liabilities _ => true
  | _ => false

def PdfDest.isIncome : PdfDest → Bool
  | .income _ _ => true
  | _ => false

def destIsAssets : Option CsvDest → Bool
  | some (.assets _ _) => true
  | _ => false

def destIsLiab : Option CsvDest → Bool
  | some (.liabilities _ _) => true
  | _ => false

def destIsIncome : Option CsvDest → Bool
  | some (.income _ _ _) => true
  | _ => false

end Analisi

namespace Analisi

/-- C8: `clean_and_convert_amount` is total: falsy inputs and failed
conversions give `none`; otherwise spaces are stripped, `.` is deleted as
a thousands separator and `,` becomes the decimal point, so the
Italian-formatted `1.234,56` converts to `1234.56` while the dot-decimal
`12.5` converts to `125.0`. -/
theorem clean_amount_total_and_italian_format :
    clean_and_convert_amount none = none ∧
    clean_and_convert_amount (some "") = none ∧
    clean_and_convert_amount (some "1.234,56") = some (123456 / 100 : ℚ) ∧
    clean_and_convert_amount (some "12.5") = some 125 ∧
    clean_and_convert_amount (some "abc") = none := by
  refine ⟨rfl, rfl, ?_, ?_, ?_⟩
  · show (cleanParse (some "1.234,56")).map partsToRat = _
    rw [(by decide : cleanParse (some "1.234,56") = some ⟨false, 1234, 56, 2, 0⟩)]
    simp [partsToRat]
    norm_num
  · show (cleanParse (some "12.5")).map partsToRat = _
    rw [(by decide : cleanParse (some "12.5") = some ⟨false, 125, 0, 0, 0⟩)]
    simp [partsToRat]
  · show (cleanParse (some "abc")).map partsToRat = _
    rw [(by decide : cleanParse (some "abc") = none)]
    rfl

end Analisi

namespace Analisi

/-- C9: `parse_textarea_data` is total; each non-empty line of the
stripped text, split on commas, contributes exactly one record iff its
second field (stripped) parses as a float, with item the stripped first
field, amount that float, and type the capitalized third field when it
exists; malformed lines are silently dropped. -/
theorem textarea_rows_iff_numeric_amount (text : String) :
    parse_textarea_data text = (pySplitChar (pyStrip text) '\n').filterMap parseTextLine ∧
    ∀ line : String,
      parseTextLine line =
        if line = "" then none
        else
          match pyFloat (pyStrip ((pySplitChar line ',').getD 1 "")) with
          | none => none
          | some a =>
            some ⟨pyStrip ((pySplitChar line ',').getD 0 ""), a,
              ((pySplitChar line ',')[2]?).map (fun p => pyCapitalize (pyStrip p))⟩ := by
  constructor
  · show textareaGo _ = _
    generalize pySplitChar (pyStrip text) '\n' = ls
    induction ls with
    | nil => rfl
    | cons l t ih =>
      simp only [textareaGo, List.filterMap_cons]
      cases h : parseTextLine l <;> simp [h, ih]
  · intro line
    by_cases h0 : line = ""
    · simp [parseTextLine, h0]
    · cases h1 : (pySplitChar line ',')[1]? with
      | none =>
        have hg : (pySplitChar line ',').getD 1 "" = "" := by
          simp [List.getD_eq_getElem?_getD, h1]
        rw [hg]
        simp [parseTextLine, h0, h1, (by decide : pyFloat (pyStrip "") = (none : Option ℚ))]
      | some p1 =>
        have hg : (pySplitChar line ',').getD 1 "" = p1 := by
          simp [List.getD_eq_getElem?_getD, h1]
        rw [hg]
        simp only [parseTextLine, h0, if_false, h1]

end Analisi

namespace Analisi

/-- C1: every ratio of the `ratios` dictionary equals its reclassified
formula under a strict-positivity guard on its denominator, and is 0 when
the guard fails; in particular a non-guarded (nonzero-capable) ratio only
arises with a strictly positive denominator. -/
theorem ratios_guarded_formulas (inp : AnalysisInput) :
    current_ratio inp =
      (if 0 < bs_current_liabilities inp then
        bs_current_assets inp / bs_current_liabilities inp else 0) ∧
    quick_ratio inp =
      (if 0 < bs_current_liabilities inp then
        (bs_current_assets inp - rimanenze inp) / bs_current_liabilities inp else 0) ∧
    debt_to_equity inp =
      (if 0 < bs_equity inp then
        (bs_current_liabilities inp + bs_non_current_liabilities inp) / bs_equity inp else 0) ∧
    ros inp = (if 0 < income_revenues inp then ebit inp / income_revenues inp else 0) ∧
    roe inp = (if 0 < bs_equity inp then net_income inp / bs_equity inp else 0) ∧
    roi inp = (if 0 < net_total_assets inp then ebit inp / net_total_assets inp else 0) ∧
    contribution_margin_ratio inp =
      (if 0 < income_revenues inp then contribution_margin inp / income_revenues inp else 0) ∧
    break_even_point inp =
      (if 0 < contribution_margin inp ∧ 0 < income_revenues inp then
        income_fixed_costs inp / (contribution_margin inp / income_revenues inp) else 0) ∧
    (current_ratio inp = 0 ∨ 0 < bs_current_liabilities inp) ∧
    (quick_ratio inp = 0 ∨ 0 < bs_current_liabilities inp) ∧
    (debt_to_equity inp = 0 ∨ 0 < bs_equity inp) ∧
    (ros inp = 0 ∨ 0 < income_revenues inp) ∧
    (roe inp = 0 ∨ 0 < bs_equity inp) ∧
    (roi inp = 0 ∨ 0 < net_total_assets inp) ∧
    (contribution_margin_ratio inp = 0 ∨ 0 < income_revenues inp) ∧
    (break_even_point inp = 0 ∨ 0 < contribution_margin inp / income_revenues inp) := by
  refine ⟨rfl, rfl, rfl, rfl, rfl, rfl, rfl, rfl, ?_, ?_, ?_, ?_, ?_, ?_, ?_, ?_⟩
  · unfold current_ratio
    split
    next h => exact Or.inr h
    next => exact Or.inl rfl
  · unfold quick_ratio
    split
    next h => exact Or.inr h
    next => exact Or.inl rfl
  · unfold debt_to_equity
    split
    next h => exact Or.inr h
    next => exact Or.inl rfl
  · unfold ros
    split
    next h => exact Or.inr h
    next => exact Or.inl rfl
  · unfold roe
    split
    next h => exact Or.inr h
    next => exact Or.inl rfl
  · unfold roi
    split
    next h => exact Or.inr h
    next => exact Or.inl rfl
  · unfold contribution_margin_ratio
    split
    next h => exact Or.inr h
    next => exact Or.inl rfl
  · unfold break_even_point
    split
    next h => exact Or.inr (div_pos h.1 h.2)
    next => exact Or.inl rfl

/-- C3: the reclassification sums fund rows (fund regex or
special-negative keyword) into `amortization_funds`, subtracts that total
from both total assets and the non-current-asset bucket, and builds each
liability bucket from exactly the non-fund rows containing a keyword of
the respective list. -/
theorem reclassification_funds_and_buckets (inp : AnalysisInput) :
    amortization_funds inp =
      sumAmounts (inp.liabilities_data.filter
        (fun d => fundRegexSearch (pyLower d.item) ||
          containsAnyKw (pyLower d.item) kwSpecialNegative)) ∧
    net_total_assets inp = total_raw_assets inp - amortization_funds inp ∧
    bs_non_current_assets inp = non_current_assets_raw inp - amortization_funds inp ∧
    bs_current_liabilities inp =
      sumAmounts (inp.liabilities_data.filter
        (fun d => containsAnyKw (pyLower d.item) kwLiabCurrent && !isFundEntry d)) ∧
    bs_non_current_liabilities inp =
      sumAmounts (inp.liabilities_data.filter
        (fun d => containsAnyKw (pyLower d.item) kwLiabNonCurrent && !isFundEntry d)) ∧
    bs_equity_raw inp =
      sumAmounts (inp.liabilities_data.filter
        (fun d => containsAnyKw (pyLower d.item) kwLiabEquity && !isFundEntry d)) := by
  refine ⟨rfl, rfl, rfl, ?_, ?_, ?_⟩ <;>
    simp only [bs_current_liabilities, bs_non_current_liabilities, bs_equity_raw,
      liabilities_no_funds, List.filter_filter]

/-- C4: the income statement is the fixed chain of sums and differences,
taxes apply only to a strictly positive EBT, and the net income collapses
to EBT when EBT is not positive. -/
theorem income_statement_chain (inp : AnalysisInput) :
    income_revenues inp =
      sumAmounts (inp.income_data.filter (fun d => d.type == some "Ricavo")) ∧
    income_variable_costs inp =
      sumAmounts (inp.income_data.filter (fun d => d.type == some "Variabile")) ∧
    income_fixed_costs inp =
      sumAmounts (inp.income_data.filter
        (fun d => d.type == some "Fisso" && !strContains (pyLower d.item) "utile")) ∧
    contribution_margin inp = income_revenues inp - income_variable_costs inp ∧
    ebit inp = contribution_margin inp - income_fixed_costs inp ∧
    interest inp =
      sumAmounts (inp.income_data.filter
        (fun d => strContains (pyLower d.item) "interessi" ||
          strContains (pyLower d.item) "oneri finanziari")) ∧
    ebt inp = ebit inp - interest inp ∧
    taxes inp = (if 0 < ebt inp then ebt inp * inp.tax_rate else 0) ∧
    net_income inp = ebt inp - taxes inp ∧
    net_income inp = (if 0 < ebt inp then ebt inp - ebt inp * inp.tax_rate else ebt inp) := by
  refine ⟨rfl, rfl, rfl, rfl, rfl, rfl, rfl, rfl, rfl, ?_⟩
  by_cases h : 0 < ebt inp <;> simp [net_income, taxes, h]

/-- C10: the app reports the balance sheet as balanced iff the absolute
difference between net total assets and total liabilities plus equity
(equity adjusted by the positive `utile` income rows) is strictly below
20. -/
theorem balance_check_threshold (inp : AnalysisInput) :
    (bilancio_quadra inp = true ↔
      |net_total_assets inp -
        (bs_current_liabilities inp + bs_non_current_liabilities inp + bs_equity inp)| < 20) ∧
    bs_equity inp =
      (if 0 < utile_from_pdf inp then bs_equity_raw inp + utile_from_pdf inp
       else bs_equity_raw inp) ∧
    utile_from_pdf inp =
      sumAmounts (inp.income_data.filter
        (fun d => strContains (pyLower d.item) "utile d\x27esercizio" ||
          pyLower d.item == "utile")) := by
  refine ⟨?_, rfl, rfl⟩
  simp [bilancio_quadra, balance_diff, total_liabilities_and_equity]

end Analisi

namespace Analisi

/-- C2: a PDF row with recognized saldo is routed by keyword substring
matching on its lowercased description: D-side rows go to assets iff an
asset keyword occurs, else to income typed Variabile/Fisso by the
variable-cost keywords; A-side rows go to liabilities with absolute
amount iff the fund regex matches, else to liabilities as-is iff a
liability or equity keyword occurs, else to income as Ricavo. -/
theorem pdf_row_keyword_routing (desc : String) (amt : ℚ) :
    classifyPdfRow desc 'D' amt =
      (if containsAnyKw (pyLower desc) kwAssetsAll then
        PdfDest.assets amt
       else
        PdfDest.income amt
          (if containsAnyKw (pyLower desc) kwIncomeVariable then "Variabile" else "Fisso")) ∧
    classifyPdfRow desc 'A' amt =
      (if fundRegexSearch (pyLower desc) then PdfDest.liabilities |amt|
       else if containsAnyKw (pyLower desc) kwLiabAll then
        PdfDest.liabilities amt
       else PdfDest.income amt "Ricavo") ∧
    (classifyPdfRow desc 'D' amt).isAssets =
      containsAnyKw (pyLower desc) kwAssetsAll ∧
    (classifyPdfRow desc 'D' amt).isIncome =
      !containsAnyKw (pyLower desc) kwAssetsAll ∧
    (classifyPdfRow desc 'A' amt).isLiab =
      (fundRegexSearch (pyLower desc) ||
        containsAnyKw (pyLower desc) kwLiabAll) ∧
    (classifyPdfRow desc 'A' amt).isIncome =
      (!fundRegexSearch (pyLower desc) &&
        !containsAnyKw (pyLower desc) kwLiabAll) := by
  have hD : classifyPdfRow desc 'D' amt =
      (if containsAnyKw (pyLower desc) kwAssetsAll then
        PdfDest.assets amt
       else
        PdfDest.income amt
          (if containsAnyKw (pyLower desc) kwIncomeVariable then "Variabile" else "Fisso")) := by
    unfold classifyPdfRow
    rw [if_pos rfl]
  have hA : classifyPdfRow desc 'A' amt =
      (if fundRegexSearch (pyLower desc) then PdfDest.liabilities |amt|
       else if containsAnyKw (pyLower desc) kwLiabAll then
        PdfDest.liabilities amt
       else PdfDest.income amt "Ricavo") := by
    unfold classifyPdfRow
    rw [if_neg (by decide)]
  refine ⟨hD, hA, ?_, ?_, ?_, ?_⟩
  · rw [hD]
    by_cases h : containsAnyKw (pyLower desc) kwAssetsAll = true <;>
      simp [h, PdfDest.isAssets]
  · rw [hD]
    by_cases h : containsAnyKw (pyLower desc) kwAssetsAll = true <;>
      simp [h, PdfDest.isIncome]
  · rw [hA]
    by_cases h1 : fundRegexSearch (pyLower desc) = true <;>
      by_cases h2 : containsAnyKw (pyLower desc) kwLiabAll = true <;>
        simp [h1, h2, PdfDest.isLiab]
  · rw [hA]
    by_cases h1 : fundRegexSearch (pyLower desc) = true <;>
      by_cases h2 : containsAnyKw (pyLower desc) kwLiabAll = true <;>
        simp [h1, h2, PdfDest.isIncome]

/-- C7: a valid CSV data row is routed by substring tests on its
lowercased sezione, with the priority attivit, then passivit/pn, then
conto economico (capitalized tipo, default Fisso); otherwise the row is
dropped. -/
theorem csv_row_section_routing (r : CsvRow) :
    routeCsvRow r =
      (if strContains (pyLower r.sezione) "attivit" then
        some (CsvDest.assets (pyStrip r.voce) r.importo)
       else if strContains (pyLower r.sezione) "passivit" || strContains (pyLower r.sezione) "pn" then
        some (CsvDest.liabilities (pyStrip r.voce) r.importo)
       else if strContains (pyLower r.sezione) "conto economico" then
        some (CsvDest.income (pyStrip r.voce) r.importo (pyCapitalize (r.tipo.getD "Fisso")))
       else none) ∧
    destIsAssets (routeCsvRow r) = strContains (pyLower r.sezione) "attivit" ∧
    destIsLiab (routeCsvRow r) =
      (!strContains (pyLower r.sezione) "attivit" &&
        (strContains (pyLower r.sezione) "passivit" || strContains (pyLower r.sezione) "pn")) ∧
    destIsIncome (routeCsvRow r) =
      (!strContains (pyLower r.sezione) "attivit" &&
        !(strContains (pyLower r.sezione) "passivit" || strContains (pyLower r.sezione) "pn") &&
        strContains (pyLower r.sezione) "conto economico") ∧
    (routeCsvRow r).isNone =
      (!strContains (pyLower r.sezione) "attivit" &&
        !(strContains (pyLower r.sezione) "passivit" || strContains (pyLower r.sezione) "pn") &&
        !strContains (pyLower r.sezione) "conto economico") := by
  refine ⟨rfl, ?_, ?_, ?_, ?_⟩ <;>
    by_cases h1 : strContains (pyLower r.sezione) "attivit" = true <;>
      by_cases h2 : (strContains (pyLower r.sezione) "passivit" ||
        strContains (pyLower r.sezione) "pn") = true <;>
        by_cases h3 : strContains (pyLower r.sezione) "conto economico" = true <;>
          simp [routeCsvRow, h1, h2, h3, destIsAssets, destIsLiab, destIsIncome]

end Analisi

namespace Analisi

theorem case1Match_side (cell : String) (g : String) (c : Char)
    (h : case1Match cell = some (g, c)) : c = 'D' ∨ c = 'A' := by
  unfold case1Match at h
  dsimp only at h
  repeat' split at h
  any_goals exact Option.noConfusion h
  all_goals
    (injection h with h1
     injection h1 with hg hc
     subst hc
     simp only [Bool.and_eq_true, Bool.or_eq_true, beq_iff_eq] at *
     casesm* _ ∧ _, _ ∨ _ <;> subst_vars <;> decide)

theorem saldoCase1Go_side (l : List String) : ∀ q c,
    saldoCase1Go l = some (q, c) → c = 'D' ∨ c = 'A' := by
  induction l with
  | nil => intro q c h; exact Option.noConfusion h
  | cons a t ih =>
    intro q c h
    unfold saldoCase1Go at h
    split at h
    · rename_i gs hgs
      split at h
      · injection h with h1
        injection h1 with hq hc
        subst hc
        exact case1Match_side a gs.1 gs.2 hgs
      · exact Option.noConfusion h
    · exact ih q c h

theorem case2Pair_side (a b : String) (q : ℚ) (c : Char)
    (h : case2Pair a b = some (q, c)) : c = 'D' ∨ c = 'A' := by
  unfold case2Pair at h
  dsimp only at h
  repeat' split at h
  all_goals
    first
      | exact Option.noConfusion h
      | (injection h with h1
         injection h1 with hq hc
         first
           | exact Or.inl hc.symm
           | exact Or.inr hc.symm)

theorem saldoCase2Go_side (l : List String) : ∀ q c,
    saldoCase2Go l = some (q, c) → c = 'D' ∨ c = 'A' := by
  induction l with
  | nil => intro q c h; exact Option.noConfusion h
  | cons a t ih =>
    cases t with
    | nil => intro q c h; exact Option.noConfusion h
    | cons b rest =>
      intro q c h
      unfold saldoCase2Go at h
      split at h
      · rename_i r hr
        injection h with h1
        exact case2Pair_side a b q c (h1 ▸ hr)
      · exact ih q c h

theorem saldoCase3Hdr_side (sdVal saVal : Option ℚ) (q : ℚ) (c : Char)
    (h : saldoCase3Hdr sdVal saVal = some (q, c)) : c = 'D' ∨ c = 'A' := by
  unfold saldoCase3Hdr at h
  split at h
  · cases sdVal with
    | none => exact Option.noConfusion h
    | some v =>
      injection h with h1
      injection h1 with hq hc
      exact Or.inl hc.symm
  · split at h
    · cases saVal with
      | none => exact Option.noConfusion h
      | some v =>
        injection h with h1
        injection h1 with hq hc
        exact Or.inr hc.symm
    · exact Option.noConfusion h

theorem saldoCase3Fallback_side (lh cells : List String) (q : ℚ) (c : Char)
    (h : saldoCase3Fallback lh cells = some (q, c)) : c = 'D' ∨ c = 'A' := by
  unfold saldoCase3Fallback at h
  dsimp only at h
  repeat' split at h
  all_goals
    first
      | exact Option.noConfusion h
      | (injection h with h1
         injection h1 with hq hc
         first
           | exact Or.inl hc.symm
           | exact Or.inr hc.symm)

theorem saldoCase3_side (lh cells : List String) (q : ℚ) (c : Char)
    (h : saldoCase3 lh cells = some (q, c)) : c = 'D' ∨ c = 'A' := by
  unfold saldoCase3 at h
  split at h
  · exact saldoCase3Hdr_side _ _ q c h
  · exact saldoCase3Fallback_side lh cells q c h

theorem extractSaldo_side (lh cells : List String) (q : ℚ) (c : Char)
    (h : extractSaldo lh cells = some (q, c)) : c = 'D' ∨ c = 'A' := by
  unfold extractSaldo at h
  split at h
  · rename_i r hr
    injection h with h1
    exact saldoCase1Go_side (cells.drop 1) q c (h1 ▸ hr)
  · split at h
    · rename_i r hr
      injection h with h1
      exact saldoCase2Go_side (cells.drop 1) q c (h1 ▸ hr)
    · exact saldoCase3_side lh cells q c h

/-- C5: saldo extraction tries the three cases in order, a later case
running only when every earlier one produced no amount, and a row whose
extraction fails (or whose side is not D/A, which cannot happen) is
skipped: the processed row is exactly the classified extraction result. -/
theorem pdf_saldo_case_chain (lh cells : List String) (desc : String) :
    extractSaldo lh cells =
      ((saldoCase1 cells).orElse fun _ =>
        (saldoCase2 cells).orElse fun _ => saldoCase3 lh cells) ∧
    processPdfRow lh cells desc =
      (extractSaldo lh cells).map (fun qc => classifyPdfRow desc qc.2 qc.1) := by
  constructor
  · unfold extractSaldo
    cases saldoCase1 cells <;> cases saldoCase2 cells <;> simp [Option.orElse]
  · cases h : extractSaldo lh cells with
    | none => simp [processPdfRow, h]
    | some qc =>
      have hside := extractSaldo_side lh cells qc.1 qc.2 h
      simp only [processPdfRow, h, Option.map_some]
      rcases hside with hc | hc <;> simp [hc]

end Analisi

namespace Analisi

theorem emitRows_no_error (rows : List CsvRow) : (emitRows rows).error = false := by
  induction rows with
  | nil => rfl
  | cons r rest ih =>
    unfold emitRows
    cases hr : routeCsvRow r with
    | none => exact ih
    | some d => cases d <;> exact ih

/-- C6: `parse_csv_file` returns the error output (three empty outputs
after reporting an error) in exactly two cases: no configuration yields a
dataframe whose normalized columns include voce, or the selected
dataframe lacks a required column after normalization; otherwise it emits
the rows of the selected dataframe. -/
theorem csv_error_exactly_two_cases (attempts : List (Option Frame)) :
    ((parse_csv_file attempts).error = true ↔
      selectDf attempts = none ∨
        ∃ df, selectDf attempts = some df ∧
          ¬ requiredCols.all (fun c => (normColsSL df).contains c) = true) ∧
    ((parse_csv_file attempts).error = true →
      parse_csv_file attempts = ⟨true, [], [], []⟩) ∧
    (∀ df, selectDf attempts = some df →
      requiredCols.all (fun c => (normColsSL df).contains c) = true →
      parse_csv_file attempts = emitRows df.rows) ∧
    (∀ rows, (emitRows rows).error = false) := by
  refine ⟨?_, ?_, ?_, emitRows_no_error⟩
  · unfold parse_csv_file
    cases hsel : selectDf attempts with
    | none => simp
    | some df =>
      dsimp only
      by_cases hreq : requiredCols.all (fun c => (normColsSL df).contains c) = true
      · rw [if_pos hreq]
        constructor
        · intro hfalse
          rw [emitRows_no_error df.rows] at hfalse
          exact Bool.noConfusion hfalse
        · rintro (hnone | ⟨df2, hdf2, hnc⟩)
          · exact Option.noConfusion hnone
          · injection hdf2 with hdf2e
            exact absurd (hdf2e ▸ hreq) hnc
      · rw [if_neg hreq]
        constructor
        · intro _
          exact Or.inr ⟨df, rfl, hreq⟩
        · intro _
          rfl
  · intro he
    unfold parse_csv_file at he ⊢
    cases hsel : selectDf attempts with
    | none => rfl
    | some df =>
      rw [hsel] at he
      dsimp only at he ⊢
      by_cases hreq : requiredCols.all (fun c => (normColsSL df).contains c) = true
      · rw [if_pos hreq] at he
        rw [emitRows_no_error df.rows] at he
        exact Bool.noConfusion he
      · rw [if_neg hreq]
  · intro df hsel hreq
    unfold parse_csv_file
    rw [hsel]
    dsimp only
    rw [if_pos hreq]

/-- Witness for `csv_error_exactly_two_cases` at concrete inputs. -/
theorem csv_error_exactly_two_cases_witness :
    parse_csv_file [none] = ⟨true, [], [], []⟩ ∧
    parse_csv_file [some ⟨["voce", "importo", "sezione"], []⟩] = emitRows [] :=
  ⟨(csv_error_exactly_two_cases [none]).2.1 (by rfl),
   (csv_error_exactly_two_cases [some ⟨["voce", "importo", "sezione"], []⟩]).2.2.1
     ⟨["voce", "importo", "sezione"], []⟩ (by rfl) (by decide)⟩

end Analisi
